import Mathlib

/-!
Verification model of the napping HTTP convenience library
(src/api.go, src/request.go).

The Go code is shallowly embedded: Go maps (`url.Values`, `http.Header`)
become association lists over `String`, byte slices become `List Nat`
(one entry per byte), external collaborators (`url.Parse`, the HTTP
client's `Do`, `json.Unmarshal`) become oracle functions collected in an
`Env` record, and the stateful `Session.Send` method becomes the pure
function `sendModel` that returns the mutated session and request
descriptor together with instrumentation (whether the transport was
invoked, which client was used, which transport-level request was built,
and which JSON-decode calls were issued).
-/

namespace Napping

/-- Association-list update, modelling `m[k] = v` on a Go map: replaces the
first entry for `k`, or appends a fresh entry. -/
def aset {α : Type} : List (String × α) → String → α → List (String × α)
  | [], k, v => [(k, v)]
  | e :: rest, k, v => if e.1 = k then (k, v) :: rest else e :: aset rest k v

/-- Association-list lookup, modelling `m[k]` on a Go map. -/
def afind {α : Type} : List (String × α) → String → Option α
  | [], _ => none
  | e :: rest, k => if e.1 = k then some e.2 else afind rest k

/-- Copy every entry of `layer` into `base`, modelling
`for k, v := range layer { base[k] = v }`. -/
def asetAll {α : Type} (base layer : List (String × α)) : List (String × α) :=
  layer.foldl (fun acc e => aset acc e.1 e.2) base

/-- `url.Values` (`map[string][]string`) as an association list. -/
abbrev Values := List (String × List String)

/-- `http.Header.Get`: the stored value, or `""` when absent. -/
def hget (h : List (String × String)) (k : String) : String :=
  (afind h k).getD ""

/-- `url.Userinfo`: the credentials half of a URL.  `Password()`'s ok flag
is discarded by `Send`, so only the strings are kept. -/
structure Userinfo where
  username : String
  password : String
deriving Repr, DecidableEq

instance {ε α : Type} [DecidableEq ε] [DecidableEq α] : DecidableEq (Except ε α) := fun a b =>
  match a, b with
  | .error x, .error y => decidable_of_iff (x = y) (by simp)
  | .error _, .ok _ => isFalse (by simp)
  | .ok _, .error _ => isFalse (by simp)
  | .ok x, .ok y => decidable_of_iff (x = y) (by simp)

/-- The runtime classification of a `Request.Payload` value performed by
`Send` (api.go lines 150-186): the `io.Reader` type assertion, then
`reflect.TypeOf(..).Kind()`.  For kinds that get JSON-marshalled, the
constructor carries the abstract outcome of `json.Marshal` on that value
(either the produced bytes or the marshal error). -/
inductive Payload where
  /-- A value satisfying the `io.Reader` type assertion; identified abstractly. -/
  | reader (streamId : Nat)
  /-- `reflect.Map` kind: carries the `json.Marshal` outcome. -/
  | mapVal (marshal : Except String (List Nat))
  /-- `reflect.Struct` kind: carries the `json.Marshal` outcome. -/
  | structVal (marshal : Except String (List Nat))
  /-- `reflect.String` kind: carries the byte conversion of the string. -/
  | strVal (bytes : List Nat)
  /-- A `[]byte` slice. -/
  | byteSlice (bytes : List Nat)
  /-- A `[]interface\x7b\x7d` slice: carries the `json.Marshal` outcome
  (the error is discarded by the code). -/
  | ifaceSlice (marshal : Except String (List Nat))
  /-- Any other slice type: no case applies, `bydata` stays empty. -/
  | otherSlice
  /-- Any other kind (int, bool, pointer, ...): the switch has no case. -/
  | otherKind
deriving Repr, DecidableEq

/-- The body argument handed to `http.NewRequest`: either a passed-through
`io.Reader` or a `bytes.Buffer` over marshalled bytes. -/
inductive BodySrc where
  | stream (streamId : Nat)
  | bytes (data : List Nat)
deriving Repr, DecidableEq

/-- Result of `url.Parse`: the parts of the parsed URL that `Send` reads.
`base` stands for everything outside the query string (scheme, host,
path), since `Send` only rewrites `RawQuery`. -/
structure URL where
  base : String
  scheme : String
  user : Option Userinfo
  query : Values
deriving Repr, DecidableEq

/-- `http.Client` as `Send` configures it: only the `Transport` field is
ever set (from `Request.Transport`, modelled as an abstract id). -/
structure Client where
  transport : Option Nat
deriving Repr, DecidableEq

/-- The transport-level request assembled by `Send` and handed to
`client.Do`: method, URL (base plus re-encoded merged query), body
source, final header set and basic-auth credentials. -/
structure HttpRequest where
  method : String
  urlBase : String
  query : Values
  body : Option BodySrc
  header : List (String × String)
  basicAuth : Option (String × String)
deriving Repr, DecidableEq

/-- The transport's response: status code, the outcome of draining the
body (`ioutil.ReadAll` may fail), and the Content-Type header. -/
structure HttpResponse where
  statusCode : Int
  body : Except String (List Nat)
  contentType : String
deriving Repr, DecidableEq

/-- The `Request` descriptor of request.go.  `Result` and `Error` record
whether a (non-nil) decode destination was supplied.  The lower-case
fields are the ones populated by `Send`. -/
structure Request where
  Url : String
  Method : String
  Params : Option Values
  Payload : Option Payload
  NotProcessBody : Bool
  Userinfo : Option Userinfo
  Header : Option (List (String × String))
  Transport : Option Nat
  Result : Bool
  Error : Bool
  timestamp : Nat
  status : Int
  response : Option HttpResponse
  body : List Nat
deriving Repr, DecidableEq

/-- `type Response Request` (request.go line 56). -/
abbrev Response := Request

/-- The napping `Session`: lazily-created shared client plus optional
defaults. -/
structure Session where
  Client : Option Client
  Userinfo : Option Userinfo
  Header : Option (List (String × String))
  Params : Option Values
deriving Repr, DecidableEq

/-- Oracles for the external collaborators `Send` calls into:
`url.Parse`, `time.Now`, `client.Do`, and `json.Unmarshal` into the
Result (flag `true`) or Error (flag `false`) destination. -/
structure Env where
  parseUrl : String → Except String URL
  now : Nat
  exec : Client → HttpRequest → Except String HttpResponse
  unmarshalInto : List Nat → Bool → Except String Unit

/-- Everything observable about one `Send` call: its return value, the
session and request descriptor after the call, and instrumentation of
the externally visible steps. -/
structure SendOutcome where
  /-- The `(response, err)` return of `Send`. -/
  result : Except String Response
  /-- The session after the call (its `Client` field may have been set). -/
  session : Session
  /-- The request descriptor after the call (mutated in place by `Send`). -/
  req : Request
  /-- Whether `client.Do` was invoked. -/
  transportCalled : Bool
  /-- The transport-level request handed to `client.Do`, if one was built. -/
  sentReq : Option HttpRequest
  /-- The client instance handed to `client.Do`, if reached. -/
  usedClient : Option Client
  /-- `some o` when `json.Unmarshal(body, r.Result)` was invoked and
  returned outcome `o` (which `Send` discards). -/
  resultDecode : Option (Except String Unit)
  /-- `some o` when `json.Unmarshal(body, r.Error)` was invoked and
  returned outcome `o` (which `Send` discards). -/
  errorDecode : Option (Except String Unit)

/-- The bracket heuristic of api.go lines 180-181: first byte and last
byte form a curly-brace pair (bytes 123/125) or a square-bracket pair
(bytes 91/93). -/
def jsonLike (b : List Nat) : Bool :=
  match b.head?, b.getLast? with
  | some f, some l => (f == 123 && l == 125) || (f == 91 && l == 93)
  | _, _ => false

/-- The `bydata` computed by the kind switch of api.go lines 156-174 for
a non-`io.Reader` payload (the `reader` case is unreachable here). -/
def bydataOf : Payload → Except String (List Nat)
  | .reader _ => .ok []
  | .mapVal m => m
  | .structVal m => m
  | .strVal s => .ok s
  | .byteSlice b => .ok b
  | .ifaceSlice m => .ok (m.toOption.getD [])
  | .otherSlice => .ok []
  | .otherKind => .ok []

/-- The payload-encoding block of api.go lines 150-186.  Returns the
`paylodReader` value (as an optional body source) and whether the JSON
bracket heuristic fired.  Note the faithful rendering of the `io.Reader`
branch: the code only executes the no-op `r.Payload = r.Payload.(io.Reader)`
and never assigns `paylodReader`, so the body source stays `none`. -/
def encodeBody : Option Payload → Except String (Option BodySrc × Bool)
  | none => .ok (none, false)
  | some (.reader _) => .ok (none, false)
  | some pl =>
    match bydataOf pl with
    | .error e => .error e
    | .ok bydata =>
      if bydata = [] then .ok (none, false)
      else .ok (some (.bytes bydata), jsonLike bydata)

/-- The parameter merge of api.go lines 113-133: start from an empty set,
copy the session defaults, then the parameters already present in the
parsed URL, then the request-level parameters, each later layer
overwriting per key. -/
def mergeParams (sp : Option Values) (uq : Values) (rp : Option Values) : Values :=
  asetAll (asetAll (asetAll [] (sp.getD [])) uq) (rp.getD [])

/-- `Session.Send` (api.go lines 101-267) as a pure function over the
oracle environment.  `http.NewRequest` is modelled as always succeeding
(it only packages method, URL and body).  The query-string re-encoding
`u.RawQuery = p.Encode()` is modelled by carrying the merged parameter
set on the transport request directly. -/
def sendModel (env : Env) (s : Session) (r0 : Request) : SendOutcome :=
  let r1 := { r0 with Method := r0.Method.toUpper }
  match env.parseUrl r1.Url with
  | .error e =>
    { result := .error e, session := s, req := r1, transportCalled := false,
      sentReq := none, usedClient := none, resultDecode := none, errorDecode := none }
  | .ok u =>
    let p := mergeParams s.Params u.query r1.Params
    let r2 := { r1 with Params := some p }
    let header1 := asetAll [] (s.Header.getD [])
    match encodeBody r2.Payload with
    | .error e =>
      { result := .error e, session := s, req := r2, transportCalled := false,
        sentReq := none, usedClient := none, resultDecode := none, errorDecode := none }
    | .ok enc =>
      let header2 := if enc.2 then aset header1 "Content-Type" "application/json" else header1
      let userinfo := r2.Userinfo <|> (s.Userinfo <|> u.user)
      let header3 := asetAll header2 (r2.Header.getD [])
      let header4 := if hget header3 "Accept" = "" then aset header3 "Accept" "*/*" else header3
      let auth := match userinfo with
        | some ui => some (ui.username, ui.password)
        | none => none
      let hreq : HttpRequest :=
        { method := r2.Method, urlBase := u.base, query := p, body := enc.1,
          header := header4, basicAuth := auth }
      let r3 := { r2 with timestamp := env.now }
      let cp : Client × Session :=
        match s.Client with
        | some c => (c, s)
        | none => (Client.mk r3.Transport, { s with Client := some (Client.mk r3.Transport) })
      match env.exec cp.1 hreq with
      | .error e =>
        { result := .error e, session := cp.2, req := r3, transportCalled := true,
          sentReq := some hreq, usedClient := some cp.1, resultDecode := none, errorDecode := none }
      | .ok resp =>
        let r4 := { r3 with status := resp.statusCode, response := some resp }
        if r4.NotProcessBody then
          { result := .ok r4, session := cp.2, req := r4, transportCalled := true,
            sentReq := some hreq, usedClient := some cp.1, resultDecode := none, errorDecode := none }
        else
          match resp.body with
          | .error e =>
            { result := .error e, session := cp.2, req := { r4 with body := [] },
              transportCalled := true, sentReq := some hreq, usedClient := some cp.1,
              resultDecode := none, errorDecode := none }
          | .ok bs =>
            let r5 := { r4 with body := bs }
            if bs = [] then
              { result := .ok r5, session := cp.2, req := r5, transportCalled := true,
                sentReq := some hreq, usedClient := some cp.1, resultDecode := none, errorDecode := none }
            else
              let rd := if decide (resp.statusCode ≤ 200) && r5.Result
                then some (env.unmarshalInto bs true) else none
              let ed := if decide (200 < resp.statusCode) && r5.Error
                then some (env.unmarshalInto bs false) else none
              { result := .ok r5, session := cp.2, req := r5, transportCalled := true,
                sentReq := some hreq, usedClient := some cp.1, resultDecode := rd, errorDecode := ed }

/-- `Response.StatusOk` (request.go lines 79-81): `r.status <= 300`. -/
def Response.StatusOk (r : Response) : Bool :=
  decide (r.status ≤ 300)

/-- `Response.Status` (request.go lines 75-77). -/
def Response.Status (r : Response) : Int :=
  r.status

/-- `Response.RawByte` (request.go lines 64-66). -/
def Response.RawByte (r : Response) : List Nat :=
  r.body

/-- `Response.Unmarshal` (request.go lines 99-101): returns
`json.Unmarshal(r.body, v)` with the decoder abstracted as `dec`.  The
method only reads `r.body`; the returned descriptor makes the absence of
mutation explicit. -/
def Response.Unmarshal {α : Type} (dec : List Nat → Except String α) (r : Response) :
    Except String α × Response :=
  (dec r.body, r)

theorem afind_aset {α : Type} (vs : List (String × α)) (k k' : String) (v : α) :
    afind (aset vs k v) k' = if k = k' then some v else afind vs k' := by
  induction vs with
  | nil => simp [aset, afind]
  | cons e rest ih =>
    by_cases h1 : e.1 = k
    · by_cases h2 : k = k'
      · simp [aset, afind, h1, h2]
      · have h4 : ¬ e.1 = k' := by rw [h1]; exact h2
        simp [aset, afind, h1, h2, h4]
    · by_cases h2 : e.1 = k'
      · have h3 : ¬ k = k' := fun hk => h1 (hk ▸ h2)
        have h5 : ¬ k' = k := fun hk => h3 hk.symm
        simp [aset, afind, h1, h2, h3, h5]
      · simp [aset, afind, h1, h2, ih]

theorem afind_eq_none {α : Type} (vs : List (String × α)) (k : String)
    (h : k ∉ vs.map Prod.fst) : afind vs k = none := by
  induction vs with
  | nil => rfl
  | cons e rest ih =>
    simp only [List.map_cons, List.mem_cons] at h
    push_neg at h
    have h1 : ¬ e.1 = k := fun hh => h.1 hh.symm
    simp [afind, h1, ih h.2]

theorem afind_asetAll {α : Type} (layer : List (String × α)) (base : List (String × α))
    (h : (layer.map Prod.fst).Nodup) (k : String) :
    afind (asetAll base layer) k = (afind layer k <|> afind base k) := by
  induction layer generalizing base with
  | nil => simp [asetAll, afind]
  | cons e rest ih =>
    simp only [List.map_cons, List.nodup_cons] at h
    have step : asetAll base (e :: rest) = asetAll (aset base e.1 e.2) rest := rfl
    rw [step, ih _ h.2, afind_aset]
    by_cases h1 : e.1 = k
    · have hnr : afind rest k = none := afind_eq_none rest k (h1 ▸ h.1)
      simp [afind, h1, hnr]
    · simp [afind, h1]

/-- An unsent request descriptor with every optional field empty, used as
the base of the concrete test inputs below. -/
def reqBase : Request :=
  { Url := "http://example.com/a", Method := "get", Params := none, Payload := none,
    NotProcessBody := false, Userinfo := none, Header := none, Transport := none,
    Result := false, Error := false, timestamp := 0, status := 0, response := none, body := [] }

/-- A session with no client and no defaults, `Session\x7b\x7d` in Go. -/
def sessionEmpty : Session :=
  { Client := none, Userinfo := none, Header := none, Params := none }

/-- C5: `StatusOk` returns true exactly when the numeric status code is at
most 300; in particular it returns true for status 300 and false for
status 301. -/
theorem statusOk_iff_le_300 :
    (∀ r : Response, Response.StatusOk r = true ↔ r.status ≤ 300) ∧
    (∀ r : Response, r.status = 300 → Response.StatusOk r = true) ∧
    (∀ r : Response, r.status = 301 → Response.StatusOk r = false) := by
  refine ⟨fun r => ?_, fun r h => ?_, fun r h => ?_⟩ <;> simp [Response.StatusOk, *]

/-- Witness for C5 at concrete status codes 300 and 301. -/
theorem statusOk_iff_le_300_witness :
    Response.StatusOk { reqBase with status := 300 } = true ∧
    Response.StatusOk { reqBase with status := 301 } = false :=
  ⟨statusOk_iff_le_300.2.1 { reqBase with status := 300 } rfl,
   statusOk_iff_le_300.2.2 { reqBase with status := 301 } rfl⟩

/-- C8: `Unmarshal` never mutates the response descriptor (the retained
body bytes are unchanged), so calling it repeatedly with the same decode
target yields the identical result each time. -/
theorem unmarshal_idempotent {α : Type} (dec : List Nat → Except String α) (r : Response) :
    (Response.Unmarshal dec r).2 = r ∧
    ((Response.Unmarshal dec r).2).body = r.body ∧
    (Response.Unmarshal dec ((Response.Unmarshal dec r).2)).1 = (Response.Unmarshal dec r).1 :=
  ⟨rfl, rfl, rfl⟩

/-- Environment whose URL parser always fails, for exercising the
malformed-URL path. -/
def envParseFail : Env :=
  { parseUrl := fun _ => .error "parse error", now := 0,
    exec := fun _ _ => .error "no network", unmarshalInto := fun _ _ => .ok () }

/-- C6: when the raw URL string fails to parse, `Send` returns the
malformed-URL error and no transport-level request is ever constructed
or executed. -/
theorem send_aborts_on_parse_error (env : Env) (s : Session) (r : Request) (e : String)
    (h : env.parseUrl r.Url = .error e) :
    (sendModel env s r).result = .error e ∧
    (sendModel env s r).transportCalled = false ∧
    (sendModel env s r).sentReq = none ∧
    (sendModel env s r).usedClient = none := by
  simp [sendModel, h]

/-- Witness for C6 on a concrete failing parser. -/
theorem send_aborts_on_parse_error_witness :
    (sendModel envParseFail sessionEmpty reqBase).result = .error "parse error" ∧
    (sendModel envParseFail sessionEmpty reqBase).transportCalled = false ∧
    (sendModel envParseFail sessionEmpty reqBase).sentReq = none ∧
    (sendModel envParseFail sessionEmpty reqBase).usedClient = none :=
  send_aborts_on_parse_error envParseFail sessionEmpty reqBase "parse error" rfl

/-- C7: a mapping-kind or struct-kind payload whose JSON marshalling
fails makes `Send` return the marshal error, with no transport-level
request constructed and no network call made. -/
theorem send_aborts_on_marshal_error (env : Env) (s : Session) (r : Request) (u : URL)
    (e : String) (hu : env.parseUrl r.Url = .ok u)
    (hp : r.Payload = some (.mapVal (.error e)) ∨ r.Payload = some (.structVal (.error e))) :
    (sendModel env s r).result = .error e ∧
    (sendModel env s r).transportCalled = false ∧
    (sendModel env s r).sentReq = none ∧
    (sendModel env s r).usedClient = none := by
  have henc : encodeBody r.Payload = .error e := by
    rcases hp with h | h <;> simp [encodeBody, h, bydataOf]
  simp [sendModel, hu, henc]

/-- A plain parsed URL with no credentials and no embedded query. -/
def urlPlain : URL :=
  { base := "http://example.com/a", scheme := "http", user := none, query := [] }

/-- Environment for the success-free paths: parsing yields a fixed plain
URL, the network is unreachable. -/
def envNoNet : Env :=
  { parseUrl := fun _ => .ok urlPlain, now := 0,
    exec := fun _ _ => .error "no network", unmarshalInto := fun _ _ => .ok () }

/-- Witness for C7: a map payload whose marshalling fails. -/
theorem send_aborts_on_marshal_error_witness :
    (sendModel envNoNet sessionEmpty
        { reqBase with Payload := some (.mapVal (.error "marshal failed")) }).result
      = .error "marshal failed" ∧
    (sendModel envNoNet sessionEmpty
        { reqBase with Payload := some (.mapVal (.error "marshal failed")) }).transportCalled
      = false ∧
    (sendModel envNoNet sessionEmpty
        { reqBase with Payload := some (.mapVal (.error "marshal failed")) }).sentReq = none ∧
    (sendModel envNoNet sessionEmpty
        { reqBase with Payload := some (.mapVal (.error "marshal failed")) }).usedClient = none :=
  send_aborts_on_marshal_error envNoNet sessionEmpty
    { reqBase with Payload := some (.mapVal (.error "marshal failed")) }
    urlPlain "marshal failed" rfl (Or.inl rfl)

/-- Exhaustive description of how one `Send` treats the session's client:
either it aborts before reaching the transport (session unchanged, no
client used), or it reaches `client.Do`, reusing a preset client
unchanged, or creating-and-storing `Client.mk r.Transport` when none was
set. -/
theorem sendModel_session_spec (env : Env) (s : Session) (r : Request) :
    ((sendModel env s r).transportCalled = false ∧ (sendModel env s r).usedClient = none ∧
      (sendModel env s r).session = s) ∨
    ((sendModel env s r).transportCalled = true ∧
      ((∃ c, s.Client = some c ∧ (sendModel env s r).session = s ∧
          (sendModel env s r).usedClient = some c) ∨
        (s.Client = none ∧
          (sendModel env s r).session = { s with Client := some (Client.mk r.Transport) } ∧
          (sendModel env s r).usedClient = some (Client.mk r.Transport)))) := by
  rcases hpu : env.parseUrl r.Url with e | u
  · left; simp [sendModel, hpu]
  · rcases henc : encodeBody r.Payload with e | enc
    · left; simp [sendModel, hpu, henc]
    · rcases hsc : s.Client with _ | c
      · simp only [sendModel, hpu, henc, hsc]
        repeat' split
        all_goals simp
      · simp only [sendModel, hpu, henc, hsc]
        repeat' split
        all_goals simp

/-- C9: the client instance is created at most once, lazily on the first
`Send` that finds no client set; once the `Client` field is non-nil it is
never replaced, and subsequent sends through the resulting session use
that same instance. -/
theorem client_created_once (env : Env) (s : Session) (r : Request) :
    (∀ c, s.Client = some c →
      (sendModel env s r).session.Client = some c ∧
      ((sendModel env s r).usedClient = none ∨ (sendModel env s r).usedClient = some c)) ∧
    (s.Client = none → (sendModel env s r).transportCalled = false →
      (sendModel env s r).session.Client = none) ∧
    (s.Client = none → (sendModel env s r).transportCalled = true →
      (sendModel env s r).session.Client = some (Client.mk r.Transport) ∧
      (sendModel env s r).usedClient = some (Client.mk r.Transport) ∧
      ∀ r2 : Request,
        (sendModel env (sendModel env s r).session r2).session.Client
          = some (Client.mk r.Transport) ∧
        ((sendModel env (sendModel env s r).session r2).usedClient = none ∨
          (sendModel env (sendModel env s r).session r2).usedClient
            = some (Client.mk r.Transport))) := by
  refine ⟨?_, ?_, ?_⟩
  · intro c hc
    obtain ⟨ht, hu, hs⟩ | ⟨ht, ⟨c2, hc2, hs, hu⟩ | ⟨hn, hs, hu⟩⟩ := sendModel_session_spec env s r
    · rw [hs]; exact ⟨hc, Or.inl hu⟩
    · rw [hc] at hc2; injection hc2 with hcc; subst hcc
      rw [hs]; exact ⟨hc, Or.inr hu⟩
    · rw [hc] at hn; cases hn
  · intro hn ht
    obtain ⟨ht2, hu, hs⟩ | ⟨ht2, _⟩ := sendModel_session_spec env s r
    · rw [hs]; exact hn
    · rw [ht2] at ht; cases ht
  · intro hn ht
    obtain ⟨ht2, hu, hs⟩ | ⟨ht2, ⟨c2, hc2, hs, hu⟩ | ⟨hn2, hs, hu⟩⟩ := sendModel_session_spec env s r
    · rw [ht2] at ht; cases ht
    · rw [hn] at hc2; cases hc2
    · have hs1 : (sendModel env s r).session.Client = some (Client.mk r.Transport) := by
        rw [hs]
      refine ⟨hs1, hu, fun r2 => ?_⟩
      obtain ⟨ht3, hu3, hs3⟩ | ⟨ht3, ⟨c3, hc3, hs3, hu3⟩ | ⟨hn3, hs3, hu3⟩⟩ :=
        sendModel_session_spec env (sendModel env s r).session r2
      · rw [hs3]; exact ⟨hs1, Or.inl hu3⟩
      · rw [hs1] at hc3; injection hc3 with hcc; subst hcc
        rw [hs3]; exact ⟨hs1, Or.inr hu3⟩
      · rw [hs1] at hn3; cases hn3

/-- C10: once the session's client is set, a request's custom `Transport`
field has no effect (the existing client is used unchanged); the
per-request transport is honored only on a `Send` that lazily creates
the client. -/
theorem request_transport_only_on_creation (env : Env) (s : Session) (r : Request) :
    (∀ c, s.Client = some c →
      (sendModel env s r).session.Client = some c ∧
      ((sendModel env s r).usedClient = none ∨ (sendModel env s r).usedClient = some c)) ∧
    (s.Client = none → ∀ cl, (sendModel env s r).usedClient = some cl →
      cl.transport = r.Transport) := by
  refine ⟨?_, ?_⟩
  · intro c hc
    obtain ⟨ht, hu, hs⟩ | ⟨ht, ⟨c2, hc2, hs, hu⟩ | ⟨hn, hs, hu⟩⟩ := sendModel_session_spec env s r
    · rw [hs]; exact ⟨hc, Or.inl hu⟩
    · rw [hc] at hc2; injection hc2 with hcc; subst hcc
      rw [hs]; exact ⟨hc, Or.inr hu⟩
    · rw [hc] at hn; cases hn
  · intro hn cl hcl
    obtain ⟨ht, hu, hs⟩ | ⟨ht, ⟨c2, hc2, hs, hu⟩ | ⟨hn2, hs, hu⟩⟩ := sendModel_session_spec env s r
    · rw [hu] at hcl; cases hcl
    · rw [hn] at hc2; cases hc2
    · rw [hu] at hcl; injection hcl with hcc; rw [← hcc]

/-- A client preset by the caller, with some custom transport. -/
def clientA : Client := { transport := some 7 }

/-- A session whose client is already set. -/
def sessionWithClient : Session :=
  { Client := some clientA, Userinfo := none, Header := none, Params := none }

/-- Witness for C9: a preset client is kept and used; an empty session
gets the lazily created client stored. -/
theorem client_created_once_witness :
    (sendModel envNoNet sessionWithClient reqBase).session.Client = some clientA ∧
    ((sendModel envNoNet sessionWithClient reqBase).usedClient = none ∨
      (sendModel envNoNet sessionWithClient reqBase).usedClient = some clientA) ∧
    (sendModel envNoNet sessionEmpty reqBase).session.Client
      = some (Client.mk reqBase.Transport) ∧
    (sendModel envNoNet sessionEmpty reqBase).usedClient
      = some (Client.mk reqBase.Transport) := by
  refine ⟨((client_created_once envNoNet sessionWithClient reqBase).1 clientA rfl).1,
          ((client_created_once envNoNet sessionWithClient reqBase).1 clientA rfl).2,
          ?_, ?_⟩
  · exact ((client_created_once envNoNet sessionEmpty reqBase).2.2 rfl rfl).1
  · exact ((client_created_once envNoNet sessionEmpty reqBase).2.2 rfl rfl).2.1

/-- Witness for C10: with a preset client, a request carrying a custom
transport still gets the preset client; on lazy creation the created
client carries the request's transport. -/
theorem request_transport_only_on_creation_witness :
    (sendModel envNoNet sessionWithClient { reqBase with Transport := some 9 }).session.Client
      = some clientA ∧
    ((sendModel envNoNet sessionWithClient { reqBase with Transport := some 9 }).usedClient
        = none ∨
      (sendModel envNoNet sessionWithClient { reqBase with Transport := some 9 }).usedClient
        = some clientA) ∧
    (Client.mk (some 9)).transport
      = ({ reqBase with Transport := some 9 } : Request).Transport := by
  refine ⟨?_, ?_, ?_⟩
  · exact ((request_transport_only_on_creation envNoNet sessionWithClient
      { reqBase with Transport := some 9 }).1 clientA rfl).1
  · exact ((request_transport_only_on_creation envNoNet sessionWithClient
      { reqBase with Transport := some 9 }).1 clientA rfl).2
  · exact (request_transport_only_on_creation envNoNet sessionEmpty
      { reqBase with Transport := some 9 }).2 rfl (Client.mk (some 9)) rfl

/-- C4: with body capture enabled and a non-empty response body, a status
of at most 200 with a supplied success-destination JSON-decodes the body
into it, a status above 200 with a supplied error-destination decodes
into that, and the decode outcome is discarded: `Send` still returns the
populated response, never a decode error. -/
theorem send_decodes_and_swallows (env : Env) (s : Session) (r : Request) (u : URL)
    (enc : Option BodySrc × Bool) (resp : HttpResponse) (bs : List Nat)
    (hpu : env.parseUrl r.Url = .ok u)
    (henc : encodeBody r.Payload = .ok enc)
    (hex : ∀ c q, env.exec c q = .ok resp)
    (hnp : r.NotProcessBody = false)
    (hb : resp.body = .ok bs)
    (hbs : bs ≠ []) :
    (resp.statusCode ≤ 200 → r.Result = true →
      (sendModel env s r).resultDecode = some (env.unmarshalInto bs true)) ∧
    (200 < resp.statusCode → r.Error = true →
      (sendModel env s r).errorDecode = some (env.unmarshalInto bs false)) ∧
    ((sendModel env s r).result = .ok ((sendModel env s r).req) ∧
      (sendModel env s r).req.body = bs ∧
      (sendModel env s r).req.status = resp.statusCode) := by
  refine ⟨fun hst hres => ?_, fun hst herr => ?_, ?_, ?_, ?_⟩
  · simp [sendModel, hpu, henc, hex, hnp, hb, hbs, hres, hst]
  · have hst2 : ¬ resp.statusCode ≤ 200 := by omega
    simp [sendModel, hpu, henc, hex, hnp, hb, hbs, herr, hst, hst2]
  · simp [sendModel, hpu, henc, hex, hnp, hb, hbs]
  · simp [sendModel, hpu, henc, hex, hnp, hb, hbs]
  · simp [sendModel, hpu, henc, hex, hnp, hb, hbs]

/-- A 200 response carrying the two-byte JSON body of an empty object. -/
def respOkJson : HttpResponse :=
  { statusCode := 200, body := .ok [123, 125], contentType := "application/json" }

/-- A 404 response carrying the same JSON body. -/
def respErrJson : HttpResponse :=
  { statusCode := 404, body := .ok [123, 125], contentType := "application/json" }

/-- Environment returning the 200 response, with a JSON decoder that
always fails — to exhibit decode-failure swallowing. -/
def envOk200 : Env :=
  { parseUrl := fun _ => .ok urlPlain, now := 0, exec := fun _ _ => .ok respOkJson,
    unmarshalInto := fun _ _ => .error "decode failed" }

/-- Environment returning the 404 response, with a failing JSON decoder. -/
def envErr404 : Env :=
  { parseUrl := fun _ => .ok urlPlain, now := 0, exec := fun _ _ => .ok respErrJson,
    unmarshalInto := fun _ _ => .error "decode failed" }

/-- Witness for C4: status 200 decodes into the supplied success
destination, status 404 into the error destination, the failing decode
outcome is discarded, and Send still returns the populated response. -/
theorem send_decodes_and_swallows_witness :
    (sendModel envOk200 sessionEmpty { reqBase with Result := true }).resultDecode
      = some (.error "decode failed") ∧
    (sendModel envOk200 sessionEmpty { reqBase with Result := true }).result
      = .ok ((sendModel envOk200 sessionEmpty { reqBase with Result := true }).req) ∧
    (sendModel envErr404 sessionEmpty { reqBase with Error := true }).errorDecode
      = some (.error "decode failed") ∧
    (sendModel envErr404 sessionEmpty { reqBase with Error := true }).result
      = .ok ((sendModel envErr404 sessionEmpty { reqBase with Error := true }).req) := by
  have h1 := send_decodes_and_swallows envOk200 sessionEmpty { reqBase with Result := true }
    urlPlain (none, false) respOkJson [123, 125] rfl rfl (fun _ _ => rfl) rfl rfl (by decide)
  have h2 := send_decodes_and_swallows envErr404 sessionEmpty { reqBase with Error := true }
    urlPlain (none, false) respErrJson [123, 125] rfl rfl (fun _ _ => rfl) rfl rfl (by decide)
  exact ⟨h1.1 (by decide) rfl, h1.2.2.1, h2.2.1 (by decide) rfl, h2.2.2.1⟩

/-- C1 (amended): after a successful URL parse, the merged parameter set
is stored back on the request descriptor and carried on the transport
request, and it resolves every key with request-level overrides winning
over URL-embedded values, which win over session defaults. -/
theorem merged_params_precedence (env : Env) (s : Session) (r : Request) (u : URL)
    (hpu : env.parseUrl r.Url = .ok u)
    (hn1 : ((s.Params.getD []).map Prod.fst).Nodup)
    (hn2 : (u.query.map Prod.fst).Nodup)
    (hn3 : ((r.Params.getD []).map Prod.fst).Nodup) :
    (sendModel env s r).req.Params = some (mergeParams s.Params u.query r.Params) ∧
    ((sendModel env s r).sentReq = none ∨
      ∃ q, (sendModel env s r).sentReq = some q ∧
        q.query = mergeParams s.Params u.query r.Params) ∧
    ∀ k, afind (mergeParams s.Params u.query r.Params) k
      = (afind (r.Params.getD []) k <|> (afind u.query k <|> afind (s.Params.getD []) k)) := by
  refine ⟨?_, ?_, ?_⟩
  · simp only [sendModel, hpu]
    repeat' split
    all_goals simp
  · simp only [sendModel, hpu]
    repeat' split
    all_goals simp
  · intro k
    rw [mergeParams, afind_asetAll _ _ hn3, afind_asetAll _ _ hn2, afind_asetAll _ _ hn1]
    cases afind (r.Params.getD []) k <;> cases afind u.query k <;>
      cases afind (s.Params.getD []) k <;> simp [afind, Option.orElse]

/-- Session defaults with two keys, for exercising the merge. -/
def sessionC1 : Session :=
  { Client := none, Userinfo := none, Header := none,
    Params := some [("k", ["s"]), ("j", ["s2"])] }

/-- A parsed URL embedding the same two keys with different values. -/
def urlC1 : URL :=
  { base := "http://example.com/a", scheme := "http", user := none,
    query := [("k", ["u"]), ("j", ["u2"])] }

/-- Environment parsing every raw URL to `urlC1`; the network is down. -/
def envC1 : Env :=
  { parseUrl := fun _ => .ok urlC1, now := 0, exec := fun _ _ => .error "no network",
    unmarshalInto := fun _ _ => .ok () }

/-- A request overriding only key `k`. -/
def reqC1 : Request := { reqBase with Params := some [("k", ["r"])] }

/-- Witness for C1 (amended) on the concrete three-layer send. -/
theorem merged_params_precedence_witness :
    (sendModel envC1 sessionC1 reqC1).req.Params
      = some (mergeParams sessionC1.Params urlC1.query reqC1.Params) ∧
    afind (mergeParams sessionC1.Params urlC1.query reqC1.Params) "k"
      = (afind (reqC1.Params.getD []) "k" <|>
          (afind urlC1.query "k" <|> afind (sessionC1.Params.getD []) "k")) ∧
    afind (mergeParams sessionC1.Params urlC1.query reqC1.Params) "j"
      = (afind (reqC1.Params.getD []) "j" <|>
          (afind urlC1.query "j" <|> afind (sessionC1.Params.getD []) "j")) := by
  have h := merged_params_precedence envC1 sessionC1 reqC1 urlC1 rfl
    (by decide) (by decide) (by decide)
  exact ⟨h.1, h.2.2 "k", h.2.2 "j"⟩

/-- Counterexample for C1 as stated: all three layers contain key `k`,
keys `k` and `j` collide, and on `j` (present in the session defaults
and the URL) the merged set carries the URL-embedded value `u2`, not the
session default `s2` — the session layer does not win over the URL
layer. -/
theorem merged_params_session_beats_url_false :
    sessionC1.Params = some [("k", ["s"]), ("j", ["s2"])] ∧
    urlC1.query = [("k", ["u"]), ("j", ["u2"])] ∧
    reqC1.Params = some [("k", ["r"])] ∧
    (sendModel envC1 sessionC1 reqC1).req.Params = some [("k", ["r"]), ("j", ["u2"])] ∧
    afind [("k", ["r"]), ("j", ["u2"])] "j" = some ["u2"] ∧
    ¬ afind [("k", ["r"]), ("j", ["u2"])] "j" = some ["s2"] :=
  ⟨rfl, rfl, rfl, rfl, rfl, by decide⟩

/-- Content-Type lookup in the final header set built by `Send` when the
bracket heuristic fired: the request-level entry wins if present,
otherwise the heuristic's `application/json` stands, whatever the
session default headers contained. -/
theorem afind_final_header (sh rh : List (String × String))
    (hnr : (rh.map Prod.fst).Nodup) :
    afind
      (if hget (asetAll (aset (asetAll [] sh) "Content-Type" "application/json") rh) "Accept" = ""
        then aset (asetAll (aset (asetAll [] sh) "Content-Type" "application/json") rh)
          "Accept" "*/*"
        else asetAll (aset (asetAll [] sh) "Content-Type" "application/json") rh)
      "Content-Type"
      = (afind rh "Content-Type" <|> some "application/json") := by
  have hne : ¬ ("Accept" = "Content-Type") := by decide
  have hbody : afind (asetAll (aset (asetAll [] sh) "Content-Type" "application/json") rh)
      "Content-Type" = (afind rh "Content-Type" <|> some "application/json") := by
    rw [afind_asetAll _ _ hnr, afind_aset, if_pos rfl]
  split
  · rw [afind_aset, if_neg hne]; exact hbody
  · exact hbody

/-- When the bracket heuristic fired, the transport request (if built)
carries the header set obtained from the session defaults, then the
forced `application/json` Content-Type, then the request-level headers,
then the wildcard Accept default. -/
theorem sendModel_header_spec (env : Env) (s : Session) (r : Request) (u : URL)
    (bd : List Nat) (hpu : env.parseUrl r.Url = .ok u)
    (henc : encodeBody r.Payload = .ok (some (.bytes bd), true)) :
    (sendModel env s r).sentReq = none ∨
    ∃ q, (sendModel env s r).sentReq = some q ∧
      q.header =
        (if hget (asetAll (aset (asetAll [] (s.Header.getD []))
              "Content-Type" "application/json") (r.Header.getD [])) "Accept" = ""
          then aset (asetAll (aset (asetAll [] (s.Header.getD []))
              "Content-Type" "application/json") (r.Header.getD [])) "Accept" "*/*"
          else asetAll (aset (asetAll [] (s.Header.getD []))
              "Content-Type" "application/json") (r.Header.getD [])) := by
  simp only [sendModel, hpu, henc]
  repeat' split
  all_goals try exact absurd trivial (by assumption)
  all_goals simp

/-- C3 (amended): when the serialized payload is non-empty with a
matching bracket pair, the Content-Type of the transport request is the
request-level Content-Type if one was supplied, and `application/json`
otherwise — in particular the heuristic overwrites a Content-Type coming
from the session default headers. -/
theorem content_type_heuristic (env : Env) (s : Session) (r : Request) (u : URL)
    (bd : List Nat) (hpu : env.parseUrl r.Url = .ok u)
    (henc : encodeBody r.Payload = .ok (some (.bytes bd), true))
    (hnr : ((r.Header.getD []).map Prod.fst).Nodup) :
    (sendModel env s r).sentReq = none ∨
    ∃ q, (sendModel env s r).sentReq = some q ∧
      afind q.header "Content-Type"
        = (afind (r.Header.getD []) "Content-Type" <|> some "application/json") := by
  obtain hnone | ⟨q, hq, hh⟩ := sendModel_header_spec env s r u bd hpu henc
  · exact Or.inl hnone
  · refine Or.inr ⟨q, hq, ?_⟩
    rw [hh]
    exact afind_final_header _ _ hnr

/-- A session supplying a default Content-Type header. -/
def sessionCT : Session :=
  { Client := none, Userinfo := none,
    Header := some [("Content-Type", "text/plain")], Params := none }

/-- A request whose payload is the two raw bytes of an empty JSON
object, triggering the bracket heuristic. -/
def reqCT : Request := { reqBase with Payload := some (.byteSlice [123, 125]) }

/-- Witness for C3 (amended) on the concrete bracket-payload send. -/
theorem content_type_heuristic_witness :
    ((sendModel envNoNet sessionCT reqCT).sentReq = none ∨
      ∃ q, (sendModel envNoNet sessionCT reqCT).sentReq = some q ∧
        afind q.header "Content-Type"
          = (afind ((reqCT.Header).getD []) "Content-Type" <|> some "application/json")) ∧
    ((sendModel envNoNet sessionCT reqCT).sentReq.map fun q => afind q.header "Content-Type")
      = some (some "application/json") :=
  ⟨content_type_heuristic envNoNet sessionCT reqCT urlPlain [123, 125] rfl rfl (by decide),
    rfl⟩

/-- Counterexample for C3 as stated: the session default headers supply
Content-Type `text/plain`, the payload bytes form a bracket pair, and the
transport request goes out with Content-Type `application/json` — the
already-supplied session Content-Type is not preserved. -/
theorem content_type_preserved_counterexample :
    sessionCT.Header = some [("Content-Type", "text/plain")] ∧
    reqCT.Header = none ∧
    ((sendModel envNoNet sessionCT reqCT).sentReq.map fun q => afind q.header "Content-Type")
      = some (some "application/json") ∧
    (some (some "application/json") : Option (Option String)) ≠ some (some "text/plain") :=
  ⟨rfl, rfl, rfl, by decide⟩

/-- A request whose payload is an `io.Reader` value. -/
def reqReader : Request := { reqBase with Payload := some (.reader 7) }

/-- C2 (bug exhibit): for an `io.Reader` payload, the transport-level
request is built with no body at all — the reader branch only performs
the no-op `r.Payload = r.Payload.(io.Reader)` re-assignment and never
wires the stream into `paylodReader`, so `http.NewRequest` receives a
nil body instead of the identical stream. -/
theorem reader_payload_body_dropped :
    reqReader.Payload = some (.reader 7) ∧
    ((sendModel envNoNet sessionEmpty reqReader).sentReq.map fun q => q.body) = some none ∧
    (some (none : Option BodySrc)) ≠ some (some (BodySrc.stream 7)) :=
  ⟨rfl, rfl, by decide⟩

end Napping
